import Mathlib

/-!
Verification of the result-caching and progress-tracking subsystem of the
SoniqueDNA web client.

Shallow embedding of:
* `generateRequestHash` (frontend/src/components/CrossDomainRecommendations.tsx,
  lines 155-176): request fingerprinting (canonical object, 5-minute time
  bucket, JSON serialization, base64 encoding via `btoa`);
* `CacheManager` (frontend/src/utils/cacheManager.ts): `getCachedData`,
  `setCachedData`, `cleanupCache` over the browser's local key-value store;
* the polling session of `refreshCrossDomainRecs`
  (frontend/src/components/MusicDashboard.tsx, lines 54-223) together with the
  component-unmount cleanup (lines 686-696).

Modelling conventions: epoch milliseconds are `Nat`; JavaScript strings are
Lean `String`s; a thrown exception is `Except.error ()`; the in-place
`Array.prototype.sort` on the argument arrays is made explicit by returning
the post-state of each list alongside the hash.
-/

/-! ### Request fingerprinting (CrossDomainRecommendations.generateRequestHash) -/

/-- Lexicographic comparison of character sequences by code point, the order
by which JavaScript's default `Array.prototype.sort()` compares strings. -/
def charsLe : List Char → List Char → Bool
  | [], _ => true
  | _ :: _, [] => false
  | c :: cs, d :: ds =>
    if c.toNat < d.toNat then true
    else if d.toNat < c.toNat then false
    else charsLe cs ds

/-- The string order used by the default sort. -/
abbrev jsStringLe (a b : String) : Prop := charsLe a.data b.data = true

/-- Model of JavaScript `Array.prototype.sort()` on an array of strings:
a sort of the list by the default lexicographic string order. -/
def jsSortStrings (l : List String) : List String :=
  List.insertionSort jsStringLe l

/-- Decimal digit rendering used by `JSON.stringify` for the integer
`timestamp` field, written with an explicit fuel argument (the fuel bounds the
number of divisions by 10, so `n + 1` fuel always suffices for `n`). -/
def natDigitsCore : Nat → Nat → List Char → List Char
  | 0, _, acc => acc
  | fuel + 1, n, acc =>
    let d := Char.ofNat (48 + n % 10)
    if n < 10 then d :: acc else natDigitsCore fuel (n / 10) (d :: acc)

/-- Decimal rendering of a natural number, as `JSON.stringify` prints an
integer-valued JavaScript number. -/
def natLit (n : Nat) : List Char :=
  natDigitsCore (n + 1) n []

/-- Hexadecimal digit, lower case, as used in JSON `\u00XX` escapes. -/
def hexDigit (n : Nat) : Char :=
  Char.ofNat (if n < 10 then 48 + n else 87 + n)

/-- Escape of one character inside a JSON string literal, following
`JSON.stringify`. -/
def escChar (c : Char) : List Char :=
  if c = '"' then ['\\', '"']
  else if c = '\\' then ['\\', '\\']
  else if c = '\n' then ['\\', 'n']
  else if c = '\r' then ['\\', 'r']
  else if c = '\t' then ['\\', 't']
  else if c = '\x08' then ['\\', 'b']
  else if c = '\x0c' then ['\\', 'f']
  else if c.toNat < 32 then
    ['\\', 'u', '0', '0', hexDigit (c.toNat / 16), hexDigit (c.toNat % 16)]
  else [c]

/-- JSON string literal for a JavaScript string. -/
def jstr (s : String) : List Char :=
  '"' :: s.data.foldr (fun c acc => escChar c ++ acc) ['"']

/-- Comma-separated concatenation of already-serialized pieces. -/
def sepComma : List (List Char) → List Char
  | [] => []
  | [x] => x
  | x :: xs => x ++ ',' :: sepComma xs

/-- JSON array literal for an array of strings. -/
def jarr (l : List String) : List Char :=
  '[' :: sepComma (l.map jstr) ++ [']']

/-- Serialization of the canonical object built by `generateRequestHash`, up
to and including the `"timestamp":` key (the `timestamp` value and the closing
brace are appended by `jsonChars`).  `JSON.stringify` omits properties whose
value is `undefined`, hence the `Option` fields contribute nothing when
absent.  Property order is the object-literal order of the source. -/
def jsonHead (userContext : String) (musicArtists topScoredArtists userTags : List String)
    (location : Option String) (locationRadius : Option Nat) : List Char :=
  '\x7b' :: "\"userContext\":".data ++ jstr userContext
    ++ ",\"musicArtists\":".data ++ jarr musicArtists
    ++ ",\"topScoredArtists\":".data ++ jarr topScoredArtists
    ++ ",\"userTags\":".data ++ jarr userTags
    ++ (match location with
        | none => []
        | some s => ",\"location\":".data ++ jstr s)
    ++ (match locationRadius with
        | none => []
        | some n => ",\"locationRadius\":".data ++ natLit n)
    ++ ",\"timestamp\":".data

/-- `JSON.stringify` of the canonical object of `generateRequestHash`. -/
def jsonChars (userContext : String) (musicArtists topScoredArtists userTags : List String)
    (location : Option String) (locationRadius : Option Nat) (stamp : Nat) : List Char :=
  jsonHead userContext musicArtists topScoredArtists userTags location locationRadius
    ++ natLit stamp ++ ['\x7d']

/-- The base64 alphabet used by `btoa`. -/
def b64Table : List Char :=
  "ABCDEFGHIJKLMNOPQRSTUVWXYZabcdefghijklmnopqrstuvwxyz0123456789+/".data

/-- Character for a six-bit group. -/
def b64Char (n : Nat) : Char :=
  b64Table.getD n '='

/-- Base64 encoding of a byte sequence, three bytes to four characters, with
`=` padding, exactly as `btoa` produces. -/
def b64Chunks : List Nat → List Char
  | [] => []
  | [a] => [b64Char (a / 4), b64Char (a % 4 * 16), '=', '=']
  | [a, b] => [b64Char (a / 4), b64Char (a % 4 * 16 + b / 16), b64Char (b % 16 * 4), '=']
  | a :: b :: c :: rest =>
    b64Char (a / 4) :: b64Char (a % 4 * 16 + b / 16) :: b64Char (b % 16 * 4 + c / 64)
      :: b64Char (c % 64) :: b64Chunks rest

/-- JavaScript `btoa`: base64 of the code units of a Latin-1 string; throws
(`none`) when some character is above `U+00FF`. -/
def btoa (s : String) : Option String :=
  if s.data.all (fun c => c.toNat < 256) then
    some (String.mk (b64Chunks (s.data.map Char.toNat)))
  else none

/-- A character sequence `btoa` accepts: every code point is Latin-1. -/
def latin1 (l : List Char) : Prop := ∀ c ∈ l, c.toNat < 256

instance (l : List Char) : Decidable (latin1 l) :=
  inferInstanceAs (Decidable (∀ c ∈ l, c.toNat < 256))

/-- Index of a character in the base64 alphabet (inverse of `b64Char`). -/
def charIdx (c : Char) : Nat :=
  b64Table.indexOf c

/-- Base64 decoding, the inverse of `b64Chunks`; used to establish that the
encoding is injective, hence that distinct canonical serializations yield
distinct fingerprints. -/
def decodeChunks : List Char → Option (List Nat)
  | c1 :: c2 :: c3 :: c4 :: rest =>
    if rest.isEmpty then
      if c3 = '=' then some [charIdx c1 * 4 + charIdx c2 / 16]
      else if c4 = '=' then
        some [charIdx c1 * 4 + charIdx c2 / 16, charIdx c2 % 16 * 16 + charIdx c3 / 4]
      else
        some [charIdx c1 * 4 + charIdx c2 / 16, charIdx c2 % 16 * 16 + charIdx c3 / 4,
          charIdx c3 % 4 * 64 + charIdx c4]
    else
      (decodeChunks rest).map
        (fun r => (charIdx c1 * 4 + charIdx c2 / 16) :: (charIdx c2 % 16 * 16 + charIdx c3 / 4) ::
          (charIdx c3 % 4 * 64 + charIdx c4) :: r)
  | [] => some []
  | _ => none

/-- Reading a decimal digit string back into a number (inverse of `natLit`;
used to establish that `natLit` is injective). -/
def parseFrom (l : List Char) : Nat :=
  l.foldl (fun a c => a * 10 + (c.toNat - 48)) 0

/-- Result of `generateRequestHash`.  Besides the returned hash (which is
absent when `btoa` throws), it records the post-state of the three list
arguments, because `Array.prototype.sort()` sorts them in place. -/
structure GRHResult where
  hash : Option String
  musicArtistsPost : List String
  topScoredArtistsPost : List String
  userTagsPost : List String
  deriving DecidableEq, Repr

/-- The 5-minute time bucket substituted for `timestamp` when `forceRefresh`
is false: `Math.floor(Date.now() / 300000) * 300000`. -/
def timeBucket (now : Nat) : Nat :=
  now / 300000 * 300000

/-- The returned string of `generateRequestHash`: `btoa(JSON.stringify(data))`
over the canonical object whose lists are already sorted and whose timestamp
is already substituted. -/
def fingerprintOf (u : String) (ma tsa tg : List String) (loc : Option String)
    (rad : Option Nat) (stamp : Nat) : Option String :=
  btoa (String.mk (jsonChars u ma tsa tg loc rad stamp))

/-- Embedding of `generateRequestHash`
(CrossDomainRecommendations.tsx, lines 155-176).  `now` is `Date.now()`; the
ternary `forceRefresh ? now : bucket` is `cond`. -/
def generateRequestHash (userContext : String)
    (musicArtists topScoredArtists userTags : List String) (forceRefresh : Bool)
    (location : Option String) (locationRadius : Option Nat) (now : Nat) : GRHResult :=
  ⟨fingerprintOf userContext (jsSortStrings musicArtists) (jsSortStrings topScoredArtists)
      (jsSortStrings userTags) location locationRadius
      (cond forceRefresh now (timeBucket now)),
    jsSortStrings musicArtists, jsSortStrings topScoredArtists, jsSortStrings userTags⟩

/-! ### Cache manager (utils/cacheManager.ts) -/

/-- `CacheConfig` of cacheManager.ts: a registered cache namespace. -/
structure CacheConfig where
  key : String
  duration : Nat
  maxSize : Option Nat
  deriving DecidableEq, Repr

/-- `CacheEntry<T>` of cacheManager.ts, as persisted in local storage. -/
structure CacheEntry (α : Type) where
  data : α
  timestamp : Nat
  requestHash : String
  expiresAt : Nat
  deriving DecidableEq, Repr

/-- A value persisted under a local-storage key: either a parseable
`CacheEntry` or bytes on which `JSON.parse` throws. -/
inductive StoredVal (α : Type) where
  | entryV (e : CacheEntry α)
  | corruptV
  deriving DecidableEq, Repr

/-- The browser's local key-value store, keys unique, in insertion order
(`Object.keys` enumeration order). -/
abbrev Storage (α : Type) : Type := List (String × StoredVal α)

/-- Failure switches of the underlying storage: when a flag is set the
corresponding `localStorage` operation throws (quota exceeded for writes,
storage disabled for any access). -/
structure StorageEnv where
  failGet : Bool
  failSet : Bool
  failRemove : Bool
  deriving DecidableEq, Repr

/-- A healthy storage layer: no operation throws. -/
def envOk : StorageEnv := ⟨false, false, false⟩

/-- `localStorage.getItem`. -/
def lsGet {α : Type} : Storage α → String → Option (StoredVal α)
  | [], _ => none
  | (k, v) :: rest, key => if k = key then some v else lsGet rest key

/-- `localStorage.setItem`: replaces in place, or appends a new key. -/
def lsSet {α : Type} : Storage α → String → StoredVal α → Storage α
  | [], key, v => [(key, v)]
  | (k, w) :: rest, key, v =>
    if k = key then (key, v) :: rest else (k, w) :: lsSet rest key v

/-- `localStorage.removeItem`. -/
def lsRemove {α : Type} : Storage α → String → Storage α
  | [], _ => []
  | (k, v) :: rest, key => if k = key then rest else (k, v) :: lsRemove rest key

/-- `this.cacheConfigs.get(cacheKey)`: lookup among registered configs. -/
def findConfig (configs : List CacheConfig) (cacheKey : String) : Option CacheConfig :=
  configs.find? (fun c => c.key = cacheKey)

/-- Character-sequence test that the second list begins with the first. -/
def leadChars : List Char → List Char → Bool
  | [], _ => true
  | _ :: _, [] => false
  | p :: ps, c :: cs => if p = c then leadChars ps cs else false

/-- JavaScript `key.startsWith(cacheKey)`. -/
def jsStartsWith (s pre : String) : Bool :=
  leadChars pre.data s.data

/-- Age recorded by `getCacheInfo(key)?.age || 0` as used by `cleanupCache`:
`now - timestamp` for a parseable entry, `0` when the key is missing, the
stored bytes are unparseable, or reading throws (all of which make
`getCacheInfo` yield no age). -/
def ageOf {α : Type} (env : StorageEnv) (st : Storage α) (key : String) (now : Nat) : Int :=
  if env.failGet then 0
  else match lsGet st key with
    | some (.entryV e) => (now : Int) - e.timestamp
    | _ => 0

/-- `CacheManager.cleanupCache` (cacheManager.ts, lines 163-186).  Collects
the storage keys sharing the namespace key as a prefix; when they exceed
`maxSize`, sorts them by recorded age, descending (the JavaScript comparator
`(a, b) => b.timestamp - a.timestamp` over the recorded ages), and removes the
entries of the slice past `maxSize`.  When `removeItem` throws, the exception
aborts the `forEach` before any removal and is swallowed by the surrounding
catch. -/
def cleanupCache {α : Type} (env : StorageEnv) (st : Storage α) (cacheKey : String)
    (config : CacheConfig) (now : Nat) : Storage α :=
  match config.maxSize with
  | none => st
  | some maxSize =>
    let cacheKeys := (st.map Prod.fst).filter (fun k => jsStartsWith k cacheKey)
    if maxSize < cacheKeys.length then
      let entries := cacheKeys.map (fun k => (k, ageOf env st k now))
      let sorted := List.insertionSort (fun a b : String × Int => b.2 ≤ a.2) entries
      if env.failRemove then st
      else (sorted.drop maxSize).foldl (fun s e => lsRemove s e.1) st
    else st

/-- `CacheManager.getCachedData` (cacheManager.ts, lines 53-84).  Returns the
hit (if any) together with the post-state of the storage; `Except.error ()`
models an exception escaping to the caller, which happens exactly when the
catch handler's own `localStorage.removeItem` throws. -/
def getCachedData {α : Type} (configs : List CacheConfig) (env : StorageEnv)
    (st : Storage α) (cacheKey requestHash : String) (now : Nat) :
    Except Unit (Option α × Storage α) :=
  match findConfig configs cacheKey with
  | none => .ok (none, st)
  | some _ =>
    if env.failGet then
      -- localStorage.getItem throws; the catch handler removes the key
      if env.failRemove then .error () else .ok (none, lsRemove st cacheKey)
    else match lsGet st cacheKey with
      | none => .ok (none, st)
      | some .corruptV =>
        -- JSON.parse throws; the catch handler removes the key
        if env.failRemove then .error () else .ok (none, lsRemove st cacheKey)
      | some (.entryV e) =>
        if e.expiresAt < now then
          -- expired: remove the stale entry (a throwing remove reaches the
          -- catch handler, whose own remove throws again)
          if env.failRemove then .error () else .ok (none, lsRemove st cacheKey)
        else if e.requestHash ≠ requestHash then .ok (none, st)
        else .ok (some e.data, st)

/-- `CacheManager.setCachedData` (cacheManager.ts, lines 87-110).  Never
throws: the catch handler only logs.  Returns the post-state of storage. -/
def setCachedData {α : Type} (configs : List CacheConfig) (env : StorageEnv)
    (st : Storage α) (cacheKey requestHash : String) (data : α) (now : Nat) : Storage α :=
  match findConfig configs cacheKey with
  | none => st
  | some config =>
    if env.failSet then st
    else
      let entry : CacheEntry α := ⟨data, now, requestHash, now + config.duration⟩
      cleanupCache env (lsSet st cacheKey (.entryV entry)) cacheKey config now

/-! ### Polling session of refreshCrossDomainRecs (MusicDashboard.tsx) -/

/-- State of one polling session started by `refreshCrossDomainRecs`,
together with the React state it drives.  `progressLive` / `fallbackLive`
record whether `progressInterval` / `fallbackInterval` are still scheduled;
`refsProgress` / `refsFallback` record whether `intervalRefs.current` holds
the respective handle (the unmount cleanup can only clear what is stored
there).  `realPolls` counts the progress fetches actually issued. -/
structure PollState where
  pollCount : Nat
  fallbackProgress : Nat
  immediateFallbackProgress : Nat
  progressLive : Bool
  fallbackLive : Bool
  refsProgress : Bool
  refsFallback : Bool
  loading : Bool
  progress : Nat
  status : String
  currentArtist : String
  currentDomain : String
  realPolls : Nat
  deriving DecidableEq, Repr

/-- Outcome of one real-poll attempt inside the `progressInterval` callback. -/
inductive PollResult where
  | noUserId
  | fetchError
  | notOk
  | ok (percentage : Nat) (status : String) (currentArtist currentDomain : String)
  deriving DecidableEq, Repr

/-- Session state right after `refreshCrossDomainRecs` has set the React
state and scheduled both intervals (MusicDashboard.tsx, lines 77-92): loading,
progress 0, status "starting", both timers live, neither handle ever written
into `intervalRefs` by this function. -/
def pollInit : PollState :=
  ⟨0, 0, 0, true, true, false, false, true, 0, "starting", "", "", 0⟩

/-- `maxPolls` of refreshCrossDomainRecs. -/
def maxPolls : Nat := 300

/-- One firing of the `progressInterval` callback (MusicDashboard.tsx, lines
94-150).  A cleared interval no longer fires, so the state is unchanged when
`progressLive` is false. -/
def progressTick (s : PollState) (r : PollResult) : PollState :=
  if s.progressLive then
    let s := { s with pollCount := s.pollCount + 1 }
    if maxPolls < s.pollCount then
      { s with progressLive := false, fallbackLive := false,
               refsProgress := false, refsFallback := false,
               loading := false, progress := 0, status := "" }
    else
      match r with
      | .noUserId => s
      | .ok p stat a d =>
        let s := { s with realPolls := s.realPolls + 1,
                          progress := p, status := stat,
                          currentArtist := a, currentDomain := d }
        if stat = "completed" ∨ stat = "error" then
          { s with progressLive := false, fallbackLive := false,
                   refsProgress := false, refsFallback := false }
        else s
      | .notOk | .fetchError =>
        let fp := min (s.fallbackProgress + 2) 85
        { s with realPolls := s.realPolls + 1, fallbackProgress := fp,
                 progress := fp, status := "processing" }
  else s

/-- One firing of the `fallbackInterval` callback (MusicDashboard.tsx, lines
85-89). -/
def fallbackTick (s : PollState) : PollState :=
  if s.fallbackLive then
    let v := min (s.immediateFallbackProgress + 1) 85
    { s with immediateFallbackProgress := v, progress := v }
  else s

/-- The success exit path of `refreshCrossDomainRecs`: the aggregation fetch
resolved and the delayed block (MusicDashboard.tsx, lines 186-204) has run.
Whether the response body carries an error or not, the teardown is the same:
reset the React state and clear `fallbackInterval` only. -/
def successSettle (s : PollState) (_hasError : Bool) : PollState :=
  { s with loading := false, progress := 0, status := "",
           currentArtist := "", currentDomain := "", fallbackLive := false }

/-- The failure exit path of `refreshCrossDomainRecs` (MusicDashboard.tsx,
lines 206-223): the catch block clears both intervals and resets state. -/
def catchSettle (s : PollState) : PollState :=
  { s with progressLive := false, fallbackLive := false,
           refsProgress := false, refsFallback := false,
           loading := false, progress := 0, status := "",
           currentArtist := "", currentDomain := "" }

/-- The component-unmount cleanup (MusicDashboard.tsx, lines 686-696): clears
whichever handles are stored in `intervalRefs.current`, then empties it. -/
def unmountCleanup (s : PollState) : PollState :=
  let s1 := if s.refsProgress then { s with progressLive := false } else s
  let s2 := if s1.refsFallback then { s1 with fallbackLive := false } else s1
  { s2 with refsProgress := false, refsFallback := false }

/-- A run of the progress interval in which every real poll fails with a
network error, starting from `pollInit`. -/
def failRun : Nat → PollState
  | 0 => pollInit
  | n + 1 => progressTick (failRun n) .fetchError

/-! ### Helper lemmas -/

/-- The hash component of `generateRequestHash`, written out. -/
theorem generateRequestHash_hash (u : String) (ma tsa tg : List String) (f : Bool)
    (loc : Option String) (rad : Option Nat) (now : Nat) :
    (generateRequestHash u ma tsa tg f loc rad now).hash
      = fingerprintOf u (jsSortStrings ma) (jsSortStrings tsa) (jsSortStrings tg)
          loc rad (cond f now (timeBucket now)) := by
  unfold generateRequestHash
  with_reducible rfl

theorem char_toNat_injective : Function.Injective Char.toNat := by
  intro c d h
  rw [← Char.ofNat_toNat c, ← Char.ofNat_toNat d, h]

theorem charsLe_total : ∀ a b : List Char, charsLe a b = true ∨ charsLe b a = true := by
  intro a
  induction a with
  | nil => intro b; left; rfl
  | cons c cs ih =>
    intro b
    cases b with
    | nil => right; rfl
    | cons d ds =>
      by_cases h₁ : c.toNat < d.toNat
      · left; simp [charsLe, h₁]
      · by_cases h₂ : d.toNat < c.toNat
        · right; simp [charsLe, h₂]
        · rcases ih ds with h | h
          · left; simp [charsLe, h₁, h₂, h]
          · right; simp [charsLe, h₁, h₂, h]

theorem charsLe_trans : ∀ a b c : List Char,
    charsLe a b = true → charsLe b c = true → charsLe a c = true := by
  intro a
  induction a with
  | nil => intro b c _ _; rfl
  | cons x xs ih =>
    intro b c hab hbc
    cases b with
    | nil => simp [charsLe] at hab
    | cons y ys =>
      cases c with
      | nil => simp [charsLe] at hbc
      | cons z zs =>
        simp only [charsLe] at hab hbc ⊢
        split_ifs at hab hbc ⊢ <;> first
          | rfl
          | omega
          | exact ih ys zs hab hbc

theorem charsLe_antisymm : ∀ a b : List Char,
    charsLe a b = true → charsLe b a = true → a = b := by
  intro a
  induction a with
  | nil =>
    intro b _ hba
    cases b with
    | nil => rfl
    | cons d ds => simp [charsLe] at hba
  | cons c cs ih =>
    intro b hab hba
    cases b with
    | nil => simp [charsLe] at hab
    | cons d ds =>
      simp only [charsLe] at hab hba
      split_ifs at hab hba with h₁ h₂
      · omega
      · have hc : c = d := char_toNat_injective (by omega)
        rw [hc, ih ds hab hba]

theorem jsStringLe_antisymm (a b : String) (h₁ : jsStringLe a b) (h₂ : jsStringLe b a) :
    a = b := by
  cases a; cases b
  exact congrArg String.mk (charsLe_antisymm _ _ h₁ h₂)

/-- Two permutations of the same string multiset sort to the same list: the
basis of fingerprint order-independence. -/
theorem jsSort_perm {l₁ l₂ : List String} (h : List.Perm l₁ l₂) :
    jsSortStrings l₁ = jsSortStrings l₂ := by
  haveI : IsTotal String jsStringLe := ⟨fun a b => charsLe_total a.data b.data⟩
  haveI : IsTrans String jsStringLe := ⟨fun a b c => charsLe_trans a.data b.data c.data⟩
  haveI : IsAntisymm String jsStringLe := ⟨jsStringLe_antisymm⟩
  exact List.eq_of_perm_of_sorted
    (((List.perm_insertionSort jsStringLe l₁).trans h).trans
      (List.perm_insertionSort jsStringLe l₂).symm)
    (List.sorted_insertionSort jsStringLe l₁)
    (List.sorted_insertionSort jsStringLe l₂)

theorem natDigitsCore_acc (fuel : Nat) : ∀ (n : Nat) (acc : List Char),
    natDigitsCore fuel n acc = natDigitsCore fuel n [] ++ acc := by
  induction fuel with
  | zero => intro n acc; rfl
  | succ fuel ih =>
    intro n acc
    simp only [natDigitsCore]
    split
    · rfl
    · rw [ih (n / 10) [Char.ofNat (48 + n % 10)],
        ih (n / 10) (Char.ofNat (48 + n % 10) :: acc), List.append_assoc]
      rfl

theorem natDigitsCore_fuel (n : Nat) : ∀ (f₁ f₂ : Nat) (acc : List Char), n < f₁ → n < f₂ →
    natDigitsCore f₁ n acc = natDigitsCore f₂ n acc := by
  induction n using Nat.strong_induction_on with
  | _ n ih =>
    intro f₁ f₂ acc h₁ h₂
    match f₁, f₂ with
    | g₁ + 1, g₂ + 1 =>
      simp only [natDigitsCore]
      split
      · rfl
      · exact ih (n / 10) (by omega) g₁ g₂ _ (by omega) (by omega)

theorem natLit_decomp (n : Nat) :
    natLit n = if n < 10 then [Char.ofNat (48 + n % 10)]
      else natLit (n / 10) ++ [Char.ofNat (48 + n % 10)] := by
  show natDigitsCore (n + 1) n [] = _
  simp only [natDigitsCore]
  split
  · rfl
  · rw [natDigitsCore_acc, natDigitsCore_fuel (n / 10) n (n / 10 + 1) [] (by omega) (by omega)]
    rfl

theorem charOfDigit_toNat (m : Nat) (h : m < 10) : (Char.ofNat (48 + m)).toNat = 48 + m := by
  interval_cases m <;> decide

theorem parseFrom_natLit (n : Nat) : parseFrom (natLit n) = n := by
  induction n using Nat.strong_induction_on with
  | _ n ih =>
    rw [natLit_decomp]
    split
    · show List.foldl _ 0 _ = n
      simp only [List.foldl]
      rw [charOfDigit_toNat (n % 10) (by omega)]
      omega
    · show List.foldl _ 0 _ = n
      rw [List.foldl_append]
      have hrec : List.foldl (fun a c => a * 10 + (c.toNat - 48)) 0 (natLit (n / 10)) = n / 10 :=
        ih (n / 10) (by omega)
      rw [hrec]
      simp only [List.foldl]
      rw [charOfDigit_toNat (n % 10) (by omega)]
      omega

theorem natLit_inj {m n : Nat} (h : natLit m = natLit n) : m = n := by
  rw [← parseFrom_natLit m, ← parseFrom_natLit n, h]

theorem charIdx_b64Char : ∀ n : Nat, n < 64 → charIdx (b64Char n) = n := by decide

theorem b64Char_ne_pad : ∀ n : Nat, n < 64 → b64Char n ≠ '=' := by decide

theorem b64Chunks_ne_nil : ∀ l : List Nat, l ≠ [] → b64Chunks l ≠ [] := by
  intro l h
  match l with
  | [a] => simp [b64Chunks]
  | [a, b] => simp [b64Chunks]
  | a :: b :: c :: rest => simp [b64Chunks]

theorem decodeChunks_b64Chunks : ∀ l : List Nat, (∀ x ∈ l, x < 256) →
    decodeChunks (b64Chunks l) = some l := by
  intro l
  induction l using b64Chunks.induct with
  | case1 => intro _; rfl
  | case2 a =>
    intro h
    have ha : a < 256 := h a (by simp)
    have h₁ : a / 4 < 64 := by omega
    have h₂ : a % 4 * 16 < 64 := by omega
    show decodeChunks [b64Char (a / 4), b64Char (a % 4 * 16), '=', '='] = some [a]
    unfold decodeChunks
    simp only [List.isEmpty_nil, if_true, if_pos rfl]
    rw [charIdx_b64Char _ h₁, charIdx_b64Char _ h₂]
    rw [show a / 4 * 4 + a % 4 * 16 / 16 = a from by omega]
  | case3 a b =>
    intro h
    have ha : a < 256 := h a (by simp)
    have hb : b < 256 := h b (by simp)
    have h₁ : a / 4 < 64 := by omega
    have h₂ : a % 4 * 16 + b / 16 < 64 := by omega
    have h₃ : b % 16 * 4 < 64 := by omega
    show decodeChunks [b64Char (a / 4), b64Char (a % 4 * 16 + b / 16), b64Char (b % 16 * 4), '=']
      = some [a, b]
    unfold decodeChunks
    simp only [List.isEmpty_nil, if_true]
    rw [if_neg (b64Char_ne_pad _ h₃)]
    rw [charIdx_b64Char _ h₁, charIdx_b64Char _ h₂, charIdx_b64Char _ h₃]
    rw [show a / 4 * 4 + (a % 4 * 16 + b / 16) / 16 = a from by omega,
      show (a % 4 * 16 + b / 16) % 16 * 16 + b % 16 * 4 / 4 = b from by omega]
  | case4 a b c rest ih =>
    intro h
    have ha : a < 256 := h a (by simp)
    have hb : b < 256 := h b (by simp)
    have hc : c < 256 := h c (by simp)
    have h₁ : a / 4 < 64 := by omega
    have h₂ : a % 4 * 16 + b / 16 < 64 := by omega
    have h₃ : b % 16 * 4 + c / 64 < 64 := by omega
    have h₄ : c % 64 < 64 := by omega
    have hrest : ∀ x ∈ rest, x < 256 := fun x hx => h x (by simp [hx])
    cases rest with
    | nil =>
      show decodeChunks [b64Char (a / 4), b64Char (a % 4 * 16 + b / 16),
        b64Char (b % 16 * 4 + c / 64), b64Char (c % 64)] = some [a, b, c]
      unfold decodeChunks
      simp only [List.isEmpty_nil, if_true]
      rw [if_neg (b64Char_ne_pad _ h₃), if_neg (b64Char_ne_pad _ h₄)]
      rw [charIdx_b64Char _ h₁, charIdx_b64Char _ h₂, charIdx_b64Char _ h₃,
        charIdx_b64Char _ h₄]
      rw [show a / 4 * 4 + (a % 4 * 16 + b / 16) / 16 = a from by omega,
        show (a % 4 * 16 + b / 16) % 16 * 16 + (b % 16 * 4 + c / 64) / 4 = b from by omega,
        show (b % 16 * 4 + c / 64) % 4 * 64 + c % 64 = c from by omega]
    | cons r₀ rs =>
      have hne : b64Chunks (r₀ :: rs) ≠ [] := b64Chunks_ne_nil _ (by simp)
      have hdec : decodeChunks (b64Chunks (r₀ :: rs)) = some (r₀ :: rs) := ih hrest
      cases hbc : b64Chunks (r₀ :: rs) with
      | nil => exact absurd hbc hne
      | cons y ys =>
        rw [hbc] at hdec
        show decodeChunks (b64Char (a / 4) :: b64Char (a % 4 * 16 + b / 16) ::
          b64Char (b % 16 * 4 + c / 64) :: b64Char (c % 64) :: b64Chunks (r₀ :: rs))
          = some (a :: b :: c :: r₀ :: rs)
        rw [hbc]
        unfold decodeChunks
        simp only [List.isEmpty_cons, Bool.false_eq_true, if_false, hdec, Option.map_some']
        rw [charIdx_b64Char _ h₁, charIdx_b64Char _ h₂, charIdx_b64Char _ h₃,
          charIdx_b64Char _ h₄]
        rw [show a / 4 * 4 + (a % 4 * 16 + b / 16) / 16 = a from by omega,
          show (a % 4 * 16 + b / 16) % 16 * 16 + (b % 16 * 4 + c / 64) / 4 = b from by omega,
          show (b % 16 * 4 + c / 64) % 4 * 64 + c % 64 = c from by omega]

/-- On valid (Latin-1) inputs, `btoa` is injective: distinct serialized
canonical objects yield distinct fingerprints. -/
theorem btoa_inj {s₁ s₂ : String} (h₁ : latin1 s₁.data) (h₂ : latin1 s₂.data)
    (h : btoa s₁ = btoa s₂) : s₁ = s₂ := by
  have e₁ : s₁.data.all (fun c => c.toNat < 256) = true := by
    simp only [List.all_eq_true, decide_eq_true_eq]
    exact h₁
  have e₂ : s₂.data.all (fun c => c.toNat < 256) = true := by
    simp only [List.all_eq_true, decide_eq_true_eq]
    exact h₂
  simp only [btoa, e₁, e₂, if_pos, Option.some_inj] at h
  replace h : b64Chunks (s₁.data.map Char.toNat) = b64Chunks (s₂.data.map Char.toNat) :=
    congrArg String.data h
  have hb₁ : ∀ x ∈ s₁.data.map Char.toNat, x < 256 := by
    intro x hx
    rcases List.mem_map.mp hx with ⟨c, hc, rfl⟩
    exact h₁ c hc
  have hb₂ : ∀ x ∈ s₂.data.map Char.toNat, x < 256 := by
    intro x hx
    rcases List.mem_map.mp hx with ⟨c, hc, rfl⟩
    exact h₂ c hc
  have hd : s₁.data.map Char.toNat = s₂.data.map Char.toNat := by
    have := congrArg decodeChunks h
    rw [decodeChunks_b64Chunks _ hb₁, decodeChunks_b64Chunks _ hb₂] at this
    exact Option.some_inj.mp this
  have : s₁.data = s₂.data := List.map_injective_iff.mpr char_toNat_injective hd
  cases s₁; cases s₂
  exact congrArg String.mk this

theorem lsGet_eq_none_of_not_mem {α : Type} :
    ∀ (st : Storage α) (key : String), key ∉ st.map Prod.fst → lsGet st key = none := by
  intro st
  induction st with
  | nil => intro key _; rfl
  | cons p rest ih =>
    intro key h
    obtain ⟨k, v⟩ := p
    simp only [List.map_cons, List.mem_cons, not_or] at h
    simp only [lsGet, if_neg (fun hk : k = key => h.1 hk.symm)]
    exact ih key h.2

/-- Removing a key from a storage with unique keys makes it unreadable:
the physical-removal half of the TTL and corruption-repair contracts. -/
theorem lsGet_lsRemove_self {α : Type} :
    ∀ (st : Storage α) (key : String), (st.map Prod.fst).Nodup →
      lsGet (lsRemove st key) key = none := by
  intro st
  induction st with
  | nil => intro key _; rfl
  | cons p rest ih =>
    intro key h
    obtain ⟨k, v⟩ := p
    simp only [List.map_cons, List.nodup_cons] at h
    by_cases hk : k = key
    · simp only [lsRemove, if_pos hk]
      exact lsGet_eq_none_of_not_mem rest key (by rw [← hk]; exact h.1)
    · simp only [lsRemove, if_neg hk, lsGet, if_neg hk]
      exact ih key h.2

theorem progressTick_not_live {s : PollState} {r : PollResult}
    (h : s.progressLive = false) : progressTick s r = s := by
  simp [progressTick, h]

/-- Invariant of the all-polls-fail run below the ceiling: the session is
still live, and exactly one real poll has been issued per tick. -/
theorem failRun_inv : ∀ n : Nat, n ≤ 300 →
    (failRun n).pollCount = n ∧ (failRun n).progressLive = true ∧
    (failRun n).fallbackLive = true ∧ (failRun n).realPolls = n := by
  intro n
  induction n with
  | zero => intro _; exact ⟨rfl, rfl, rfl, rfl⟩
  | succ n ih =>
    intro h
    obtain ⟨h1, h2, h3, h4⟩ := ih (by omega)
    simp only [failRun, progressTick, h2, if_true, h1, maxPolls]
    rw [if_neg (by omega)]
    simp [h3, h4]

/-! ### Claim theorems -/

/-- C4: the fingerprint is order-independent in the three string lists — for
any permutations of the artist, top-scored-artist and tag lists, with all
other fields and the time bucket fixed, the fingerprint is unchanged. -/
theorem fingerprint_order_independence (u : String) (ma₁ ma₂ ts₁ ts₂ tg₁ tg₂ : List String)
    (f : Bool) (loc : Option String) (rad : Option Nat) (now : Nat)
    (h₁ : List.Perm ma₁ ma₂) (h₂ : List.Perm ts₁ ts₂) (h₃ : List.Perm tg₁ tg₂) :
    (generateRequestHash u ma₁ ts₁ tg₁ f loc rad now).hash
      = (generateRequestHash u ma₂ ts₂ tg₂ f loc rad now).hash := by
  simp only [generateRequestHash]
  rw [jsSort_perm h₁, jsSort_perm h₂, jsSort_perm h₃]

/-- Witness for C4 at concrete permuted lists. -/
theorem fingerprint_order_independence_witness :
    (generateRequestHash "ctx" ["b", "a"] ["d", "c"] ["f", "e"] false (some "x") (some 5) 7).hash
      = (generateRequestHash "ctx" ["a", "b"] ["c", "d"] ["e", "f"] false (some "x") (some 5) 7).hash :=
  fingerprint_order_independence "ctx" ["b", "a"] ["a", "b"] ["d", "c"] ["c", "d"]
    ["f", "e"] ["e", "f"] false (some "x") (some 5) 7 (by decide) (by decide) (by decide)

/-- C9 counterexample: computing the fingerprint does not leave its arguments
unchanged — the in-place `Array.prototype.sort()` reorders an unsorted tag
list, so the post-state of `userTags` differs from the supplied value. -/
theorem fingerprint_sorts_arguments_in_place :
    (generateRequestHash "" [] [] ["b", "a"] false none none 0).userTagsPost ≠ ["b", "a"] := by
  decide

/-- C9 (amended): the fingerprint function is deterministic — two calls on
equal inputs within the same time bucket return equal results — and touches
none of its arguments except the three string lists, which it sorts in place
(a list already sorted is left unchanged). -/
theorem fingerprint_purity_amended (u : String) (ma tsa tg : List String) (f : Bool)
    (loc : Option String) (rad : Option Nat) (t₁ t₂ : Nat)
    (hb : timeBucket t₁ = timeBucket t₂) :
    ((generateRequestHash u ma tsa tg f loc rad t₁).musicArtistsPost = jsSortStrings ma ∧
     (generateRequestHash u ma tsa tg f loc rad t₁).topScoredArtistsPost = jsSortStrings tsa ∧
     (generateRequestHash u ma tsa tg f loc rad t₁).userTagsPost = jsSortStrings tg) ∧
    (List.Sorted jsStringLe ma →
      (generateRequestHash u ma tsa tg f loc rad t₁).musicArtistsPost = ma) ∧
    (List.Sorted jsStringLe tsa →
      (generateRequestHash u ma tsa tg f loc rad t₁).topScoredArtistsPost = tsa) ∧
    (List.Sorted jsStringLe tg →
      (generateRequestHash u ma tsa tg f loc rad t₁).userTagsPost = tg) ∧
    (generateRequestHash u ma tsa tg false loc rad t₁).hash
      = (generateRequestHash u ma tsa tg false loc rad t₂).hash := by
  refine ⟨⟨rfl, rfl, rfl⟩, fun h => ?_, fun h => ?_, fun h => ?_, ?_⟩
  · simp [generateRequestHash, jsSortStrings, List.Sorted.insertionSort_eq h]
  · simp [generateRequestHash, jsSortStrings, List.Sorted.insertionSort_eq h]
  · simp [generateRequestHash, jsSortStrings, List.Sorted.insertionSort_eq h]
  · simp [generateRequestHash, timeBucket] at hb ⊢
    rw [hb]

/-- Witness for C9's amended theorem at concrete inputs. -/
theorem fingerprint_purity_amended_witness :
    ((generateRequestHash "c" ["a"] ["b"] ["d"] false none none 1).musicArtistsPost
        = jsSortStrings ["a"] ∧
     (generateRequestHash "c" ["a"] ["b"] ["d"] false none none 1).topScoredArtistsPost
        = jsSortStrings ["b"] ∧
     (generateRequestHash "c" ["a"] ["b"] ["d"] false none none 1).userTagsPost
        = jsSortStrings ["d"]) ∧
    (List.Sorted jsStringLe ["a"] →
      (generateRequestHash "c" ["a"] ["b"] ["d"] false none none 1).musicArtistsPost = ["a"]) ∧
    (List.Sorted jsStringLe ["b"] →
      (generateRequestHash "c" ["a"] ["b"] ["d"] false none none 1).topScoredArtistsPost = ["b"]) ∧
    (List.Sorted jsStringLe ["d"] →
      (generateRequestHash "c" ["a"] ["b"] ["d"] false none none 1).userTagsPost = ["d"]) ∧
    (generateRequestHash "c" ["a"] ["b"] ["d"] false none none 1).hash
      = (generateRequestHash "c" ["a"] ["b"] ["d"] false none none 2).hash :=
  fingerprint_purity_amended "c" ["a"] ["b"] ["d"] false none none 1 2 (by decide)

set_option maxHeartbeats 1600000 in
/-- C5 counterexample: a forced refresh issued exactly at a 5-minute boundary
(epoch millisecond 600000) yields the same fingerprint as a non-forced,
otherwise identical request issued at the different millisecond 600001, so a
forced fingerprint is not distinct from every fingerprint produced at a
different millisecond. -/
theorem forced_fingerprint_boundary_collision :
    (generateRequestHash "" [] [] [] true none none 600000).hash
      = (generateRequestHash "" [] [] [] false none none 600001).hash
    ∧ (600000 : Nat) ≠ 600001 := ⟨rfl, by decide⟩

/-- C5 (amended): the fingerprint substitutes
`timeBucket = forceRefresh ? now : floor(now / 300000) * 300000`; two
identical requests with `forceRefresh = false` in the same 5-minute window
agree, and a forced fingerprint at millisecond `t₁` differs from any
fingerprint (same other fields) whose substituted timestamp differs from
`t₁`, provided both serialized canonical objects are valid `btoa` inputs
(all characters Latin-1).  It may coincide with a non-forced fingerprint of
the 5-minute window beginning exactly at `t₁`. -/
theorem fingerprint_time_bucket_distinctness (u : String) (ma tsa tg : List String)
    (loc : Option String) (rad : Option Nat) (t₁ t₂ : Nat) (f₂ : Bool)
    (hl₁ : latin1 (jsonChars u (jsSortStrings ma) (jsSortStrings tsa) (jsSortStrings tg)
      loc rad t₁))
    (hl₂ : latin1 (jsonChars u (jsSortStrings ma) (jsSortStrings tsa) (jsSortStrings tg)
      loc rad (cond f₂ t₂ (timeBucket t₂))))
    (hne : cond f₂ t₂ (timeBucket t₂) ≠ t₁) :
    (∀ s₁ s₂ : Nat, timeBucket s₁ = timeBucket s₂ →
      (generateRequestHash u ma tsa tg false loc rad s₁).hash
        = (generateRequestHash u ma tsa tg false loc rad s₂).hash) ∧
    (generateRequestHash u ma tsa tg true loc rad t₁).hash
      ≠ (generateRequestHash u ma tsa tg f₂ loc rad t₂).hash := by
  constructor
  · intro s₁ s₂ hb
    rw [generateRequestHash_hash, generateRequestHash_hash]
    simp only [Bool.cond_false]
    rw [hb]
  · intro h
    rw [generateRequestHash_hash, generateRequestHash_hash] at h
    simp only [Bool.cond_true] at h
    have hs : String.mk (jsonChars u (jsSortStrings ma) (jsSortStrings tsa) (jsSortStrings tg)
        loc rad t₁)
      = String.mk (jsonChars u (jsSortStrings ma) (jsSortStrings tsa) (jsSortStrings tg)
        loc rad (cond f₂ t₂ (timeBucket t₂))) := btoa_inj hl₁ hl₂ h
    have hd := congrArg String.data hs
    simp only [jsonChars] at hd
    rw [List.append_assoc, List.append_assoc] at hd
    have h₂ := List.append_cancel_left hd
    have h₃ := List.append_cancel_right h₂
    exact hne (natLit_inj h₃).symm

/-- Witness for the amended C5: a forced fingerprint at millisecond 1 differs
from a forced fingerprint at millisecond 2. -/
theorem fingerprint_time_bucket_distinctness_witness :
    (generateRequestHash "" [] [] [] true none none 1).hash
      ≠ (generateRequestHash "" [] [] [] true none none 2).hash :=
  (fingerprint_time_bucket_distinctness "" [] [] [] none none 1 2 true
    (by decide) (by decide) (by decide)).2

/-- C1 counterexample: with current time exactly equal to `expiresAt` (and a
matching fingerprint), `getCachedData` still returns the entry's data — the
code expires an entry only when `now > expiresAt`, so "absent at or past
expiresAt" fails at the boundary. -/
theorem get_at_exact_expiry_returns_entry :
    getCachedData [⟨"k", 10, none⟩] envOk
        [("k", StoredVal.entryV (⟨42, 90, "h", 100⟩ : CacheEntry Nat))] "k" "h" 100
      = Except.ok (some 42, [("k", StoredVal.entryV (⟨42, 90, "h", 100⟩ : CacheEntry Nat))])
    ∧ ¬ (100 < 100) := ⟨rfl, by decide⟩

/-- C1 (amended): for a healthy storage layer, a registered namespace and a
parseable stored entry, `getCachedData` returns the entry's data iff
`now ≤ expiresAt` and the stored fingerprint equals the supplied one; when
`now > expiresAt` (strictly) it returns absent and physically removes the
entry; otherwise it leaves storage untouched.  In particular the entry is
returned at `expiresAt - 1` and deleted at `expiresAt + 1`. -/
theorem getCachedData_ttl_semantics {α : Type} (configs : List CacheConfig)
    (cfg : CacheConfig) (st : Storage α) (e : CacheEntry α) (key hash : String) (now : Nat)
    (hc : findConfig configs key = some cfg)
    (hs : lsGet st key = some (.entryV e))
    (hnd : (st.map Prod.fst).Nodup) :
    ∃ r post, getCachedData configs envOk st key hash now = .ok (r, post) ∧
      (r = some e.data ↔ now ≤ e.expiresAt ∧ e.requestHash = hash) ∧
      (e.expiresAt < now → r = none ∧ lsGet post key = none) ∧
      (now ≤ e.expiresAt → post = st) := by
  simp only [getCachedData, hc, hs, envOk, Bool.false_eq_true, if_false]
  by_cases hexp : e.expiresAt < now
  · rw [if_pos hexp]
    refine ⟨none, lsRemove st key, rfl, ?_, ?_, ?_⟩
    · constructor
      · intro h; exact absurd h (by simp)
      · intro ⟨h, _⟩; omega
    · intro _
      exact ⟨rfl, lsGet_lsRemove_self st key hnd⟩
    · intro h; omega
  · rw [if_neg hexp]
    by_cases hh : e.requestHash ≠ hash
    · rw [if_pos hh]
      refine ⟨none, st, rfl, ?_, ?_, ?_⟩
      · constructor
        · intro h; exact absurd h (by simp)
        · intro ⟨_, h⟩; exact absurd h hh
      · intro h; omega
      · intro _; rfl
    · rw [if_neg hh]
      push_neg at hh
      refine ⟨some e.data, st, rfl, ?_, ?_, ?_⟩
      · exact iff_of_true rfl ⟨by omega, hh⟩
      · intro h; omega
      · intro _; rfl

/-- Witness for the amended C1: concrete entry expiring at 100, read at 101
(strictly past expiry). -/
theorem getCachedData_ttl_semantics_witness :
    ∃ r post, getCachedData [⟨"k", 10, none⟩] envOk
        [("k", StoredVal.entryV (⟨42, 90, "h", 100⟩ : CacheEntry Nat))] "k" "h" 101
        = .ok (r, post) ∧
      (r = some 42 ↔ 101 ≤ 100 ∧ "h" = "h") ∧
      (100 < 101 → r = none ∧ lsGet post "k" = none) ∧
      (101 ≤ 100 → post = [("k", StoredVal.entryV (⟨42, 90, "h", 100⟩ : CacheEntry Nat))]) :=
  getCachedData_ttl_semantics [⟨"k", 10, none⟩] ⟨"k", 10, none⟩
    [("k", StoredVal.entryV (⟨42, 90, "h", 100⟩ : CacheEntry Nat))]
    ⟨42, 90, "h", 100⟩ "k" "h" 101 (by decide) (by decide) (by decide)

/-- C6 counterexample: with storage fully disabled (both the read and the
repair delete throw), `getCachedData` lets the exception escape to its
caller, because the catch handler itself calls `localStorage.removeItem`. -/
theorem get_with_disabled_storage_raises :
    getCachedData [⟨"k", 10, none⟩] ⟨true, false, true⟩ ([] : Storage Nat) "k" "h" 0
      = Except.error () := rfl

/-- C6 (amended): corrupted stored data is treated as absent and deleted as a
repair side effect; a throwing `setItem` makes `set` a silent no-op; a
throwing read makes `get` return absent (deleting the key) provided the
repair delete does not itself throw — when read and delete both throw, the
exception escapes `get`. -/
theorem cache_failure_semantics {α : Type} (configs : List CacheConfig)
    (cfg : CacheConfig) (st : Storage α) (key hash : String) (d : α) (now : Nat)
    (env : StorageEnv) (hc : findConfig configs key = some cfg) :
    (lsGet st key = some StoredVal.corruptV →
      getCachedData configs envOk st key hash now = .ok (none, lsRemove st key)) ∧
    (lsGet st key = some StoredVal.corruptV → (st.map Prod.fst).Nodup →
      ∃ post, getCachedData configs envOk st key hash now = .ok (none, post) ∧
        lsGet post key = none) ∧
    (env.failSet = true → setCachedData configs env st key hash d now = st) ∧
    (env.failGet = true → env.failRemove = false →
      getCachedData configs env st key hash now = .ok (none, lsRemove st key)) ∧
    (env.failGet = true → env.failRemove = true →
      getCachedData configs env st key hash now = .error ()) := by
  refine ⟨?_, ?_, ?_, ?_, ?_⟩
  · intro hcor
    simp [getCachedData, hc, hcor, envOk]
  · intro hcor hnd
    refine ⟨lsRemove st key, ?_, lsGet_lsRemove_self st key hnd⟩
    simp [getCachedData, hc, hcor, envOk]
  · intro hfs
    simp [setCachedData, hc, hfs]
  · intro hfg hfr
    simp [getCachedData, hc, hfg, hfr]
  · intro hfg hfr
    simp [getCachedData, hc, hfg, hfr]

/-- Witness for the amended C6 at a concrete corrupt store and a concrete
environment with a throwing `setItem`. -/
theorem cache_failure_semantics_witness :
    (lsGet [("k", (StoredVal.corruptV : StoredVal Nat))] "k" = some StoredVal.corruptV →
      getCachedData [⟨"k", 10, none⟩] envOk [("k", (StoredVal.corruptV : StoredVal Nat))]
        "k" "h" 5 = .ok (none, lsRemove [("k", (StoredVal.corruptV : StoredVal Nat))] "k")) ∧
    (lsGet [("k", (StoredVal.corruptV : StoredVal Nat))] "k" = some StoredVal.corruptV →
      ([("k", (StoredVal.corruptV : StoredVal Nat))].map Prod.fst).Nodup →
      ∃ post, getCachedData [⟨"k", 10, none⟩] envOk
          [("k", (StoredVal.corruptV : StoredVal Nat))] "k" "h" 5 = .ok (none, post) ∧
        lsGet post "k" = none) ∧
    ((⟨false, true, false⟩ : StorageEnv).failSet = true →
      setCachedData [⟨"k", 10, none⟩] ⟨false, true, false⟩
        [("k", (StoredVal.corruptV : StoredVal Nat))] "k" "h" 7 5
        = [("k", (StoredVal.corruptV : StoredVal Nat))]) ∧
    ((⟨false, true, false⟩ : StorageEnv).failGet = true →
      (⟨false, true, false⟩ : StorageEnv).failRemove = false →
      getCachedData [⟨"k", 10, none⟩] ⟨false, true, false⟩
        [("k", (StoredVal.corruptV : StoredVal Nat))] "k" "h" 5
        = .ok (none, lsRemove [("k", (StoredVal.corruptV : StoredVal Nat))] "k")) ∧
    ((⟨false, true, false⟩ : StorageEnv).failGet = true →
      (⟨false, true, false⟩ : StorageEnv).failRemove = true →
      getCachedData [⟨"k", 10, none⟩] ⟨false, true, false⟩
        [("k", (StoredVal.corruptV : StoredVal Nat))] "k" "h" 5 = .error ()) :=
  cache_failure_semantics [⟨"k", 10, none⟩] ⟨"k", 10, none⟩
    [("k", (StoredVal.corruptV : StoredVal Nat))] "k" "h" 7 5 ⟨false, true, false⟩ (by decide)

/-- C8 failing input: namespace prefix "c" with `maxEntries = 2` and three
stored entries written at times 0 ("c1", oldest), 10 ("c2") and 20 ("c3",
newest), cleaned up at time 30 (recorded ages 30, 20, 10).  The code sorts
descending by recorded age and removes the slice past `maxSize`, which holds
the smallest ages — so it evicts the newest entry "c3" and retains the two
oldest entries, contradicting the claimed (and comment-documented)
oldest-first eviction that would retain the newest two. -/
theorem cleanupCache_removes_newest_entry :
    (cleanupCache envOk
        [("c1", StoredVal.entryV (⟨1, 0, "h", 1000⟩ : CacheEntry Nat)),
         ("c2", StoredVal.entryV (⟨2, 10, "h", 1010⟩ : CacheEntry Nat)),
         ("c3", StoredVal.entryV (⟨3, 20, "h", 1020⟩ : CacheEntry Nat))]
        "c" ⟨"c", 1000, some 2⟩ 30).map Prod.fst = ["c1", "c2"]
    ∧ lsGet (cleanupCache envOk
        [("c1", StoredVal.entryV (⟨1, 0, "h", 1000⟩ : CacheEntry Nat)),
         ("c2", StoredVal.entryV (⟨2, 10, "h", 1010⟩ : CacheEntry Nat)),
         ("c3", StoredVal.entryV (⟨3, 20, "h", 1020⟩ : CacheEntry Nat))]
        "c" ⟨"c", 1000, some 2⟩ 30) "c3" = none := by
  constructor
  · rfl
  · rfl

/-- C10: a cache key with no registered configuration makes `getCachedData`
return absent and `setCachedData` write nothing, whatever the storage state
or failure environment; neither operation throws. -/
theorem unregistered_namespace_noop {α : Type} (configs : List CacheConfig)
    (env : StorageEnv) (st : Storage α) (key hash : String) (d : α) (now : Nat)
    (h : findConfig configs key = none) :
    getCachedData configs env st key hash now = .ok (none, st) ∧
    setCachedData configs env st key hash d now = st := by
  constructor
  · simp [getCachedData, h]
  · simp [setCachedData, h]

/-- Witness for C10: the key "missing" has no configuration. -/
theorem unregistered_namespace_noop_witness :
    getCachedData [⟨"other", 5, none⟩] envOk
        [("missing", StoredVal.entryV (⟨1, 0, "h", 9⟩ : CacheEntry Nat))] "missing" "h" 3
      = .ok (none, [("missing", StoredVal.entryV (⟨1, 0, "h", 9⟩ : CacheEntry Nat))]) ∧
    setCachedData [⟨"other", 5, none⟩] envOk
        [("missing", StoredVal.entryV (⟨1, 0, "h", 9⟩ : CacheEntry Nat))] "missing" "h" 7 3
      = [("missing", StoredVal.entryV (⟨1, 0, "h", 9⟩ : CacheEntry Nat))] :=
  unregistered_namespace_noop [⟨"other", 5, none⟩] envOk
    [("missing", StoredVal.entryV (⟨1, 0, "h", 9⟩ : CacheEntry Nat))] "missing" "h" 7 3
    (by decide)

/-- C2 counterexample: on the success exit path (one in-flight poll tick, then
the aggregation response is applied) only the fallback timer is cleared — the
real-poll timer is still live after the promise has settled, and the unmount
cleanup cannot stop it because `refreshCrossDomainRecs` never stores its
handles in `intervalRefs`. -/
theorem success_path_leaves_poll_timer_live :
    (successSettle (progressTick pollInit (PollResult.ok 50 "processing" "" "")) false).progressLive
      = true ∧
    (unmountCleanup (successSettle (progressTick pollInit
      (PollResult.ok 50 "processing" "" "")) false)).progressLive = true := by
  constructor
  · rfl
  · rfl

/-- C2 (amended): the failure path stops both timers; a terminal backend
status or the poll ceiling stops both timers; but the success path stops only
the fallback timer, leaving the real-poll timer as it was, and the unmount
cleanup leaves the real-poll timer running whenever it is not registered in
`intervalRefs` — which `refreshCrossDomainRecs` never does. -/
theorem poller_teardown_semantics (s : PollState) (b : Bool) (r : PollResult)
    (p : Nat) (a d : String) :
    ((catchSettle s).progressLive = false ∧ (catchSettle s).fallbackLive = false) ∧
    ((successSettle s b).fallbackLive = false ∧
     (successSettle s b).progressLive = s.progressLive) ∧
    (s.progressLive = true →
      (progressTick s (.ok p "completed" a d)).progressLive = false ∧
      (progressTick s (.ok p "completed" a d)).fallbackLive = false ∧
      (progressTick s (.ok p "error" a d)).progressLive = false ∧
      (progressTick s (.ok p "error" a d)).fallbackLive = false) ∧
    (s.progressLive = true → maxPolls < s.pollCount + 1 →
      (progressTick s r).progressLive = false ∧ (progressTick s r).fallbackLive = false) ∧
    (s.refsProgress = false → (unmountCleanup s).progressLive = s.progressLive) := by
  refine ⟨⟨rfl, rfl⟩, ⟨rfl, rfl⟩, ?_, ?_, ?_⟩
  · intro hl
    simp only [progressTick, hl, if_true]
    constructor
    · split <;> simp
    · constructor
      · split <;> simp
      · constructor
        · split <;> simp
        · split <;> simp
  · intro hl hc
    simp only [progressTick, hl, if_true]
    rw [if_pos (by simpa using hc)]
    exact ⟨rfl, rfl⟩
  · intro hrp
    simp only [unmountCleanup, hrp, Bool.false_eq_true, if_false]
    split <;> rfl

/-- Witness for the amended C2 at the initial session state. -/
theorem poller_teardown_semantics_witness :
    ((catchSettle pollInit).progressLive = false ∧
     (catchSettle pollInit).fallbackLive = false) ∧
    ((successSettle pollInit true).fallbackLive = false ∧
     (successSettle pollInit true).progressLive = pollInit.progressLive) ∧
    ((progressTick pollInit (.ok 100 "completed" "" "")).progressLive = false ∧
     (progressTick pollInit (.ok 100 "completed" "" "")).fallbackLive = false ∧
     (progressTick pollInit (.ok 100 "error" "" "")).progressLive = false ∧
     (progressTick pollInit (.ok 100 "error" "" "")).fallbackLive = false) ∧
    (unmountCleanup pollInit).progressLive = pollInit.progressLive := by
  have h := poller_teardown_semantics pollInit true PollResult.noUserId 100 "" ""
  exact ⟨h.1, h.2.1, h.2.2.1 rfl, h.2.2.2.2 rfl⟩

set_option maxRecDepth 8000 in
/-- C3: in a run in which every real poll fails, the session is still live
after each of the first 300 ticks with exactly one real poll per tick; the
301st timer callback performs no further poll and stops both timers
unconditionally, surfacing the terminal abandonment update (loading off,
progress 0, empty status) even though no upstream error was observed; every
later tick leaves the session in that stopped state, so exactly 300 real
polls ever happen. -/
theorem poll_ceiling_terminates_at_300 (n : Nat) :
    (1 ≤ n → n ≤ 300 → (failRun n).progressLive = true ∧ (failRun n).fallbackLive = true ∧
      (failRun n).realPolls = n) ∧
    ((failRun 301).progressLive = false ∧ (failRun 301).fallbackLive = false ∧
     (failRun 301).loading = false ∧ (failRun 301).progress = 0 ∧
     (failRun 301).status = "" ∧ (failRun 301).realPolls = 300) ∧
    failRun (301 + n) = failRun 301 := by
  obtain ⟨hc, hp, hf, hr⟩ := failRun_inv 300 (by omega)
  have heq : ∀ m : Nat, failRun (m + 1) = progressTick (failRun m) .fetchError := fun _ => rfl
  have hstep : failRun 301 = progressTick (failRun 300) .fetchError := heq 300
  have h301 : (failRun 301).progressLive = false ∧ (failRun 301).fallbackLive = false ∧
      (failRun 301).loading = false ∧ (failRun 301).progress = 0 ∧
      (failRun 301).status = "" ∧ (failRun 301).realPolls = 300 := by
    rw [hstep]
    simp only [progressTick, hp, if_true, hc, maxPolls]
    split
    · simp [hr]
    · omega
  refine ⟨fun h1 h2 => ?_, h301, ?_⟩
  · obtain ⟨_, a, b, c⟩ := failRun_inv n h2
    exact ⟨a, b, c⟩
  · induction n with
    | zero => rfl
    | succ k ih =>
      show progressTick (failRun (301 + k)) .fetchError = failRun 301
      rw [ih, progressTick_not_live h301.1]

/-- Witness for C3 at the boundary tick 300. -/
theorem poll_ceiling_terminates_at_300_witness :
    ((failRun 300).progressLive = true ∧ (failRun 300).fallbackLive = true ∧
      (failRun 300).realPolls = 300) ∧
    (failRun 601 = failRun 301) := by
  have h := poll_ceiling_terminates_at_300 300
  exact ⟨h.1 (by decide) (by decide), h.2.2⟩

/-- C7 counterexample: on a tick with no user id available, the poll callback
surfaces nothing at all — progress and stage are left as they were (here the
initial 0 / "starting"), not the fallback counter with stage "processing"
that the claim requires for unavailable-poll ticks. -/
theorem missing_user_id_tick_surfaces_nothing :
    (progressTick pollInit PollResult.noUserId).progress = 0 ∧
    (progressTick pollInit PollResult.noUserId).status = "starting" ∧
    (progressTick pollInit PollResult.noUserId).status ≠ "processing" := by
  refine ⟨rfl, rfl, by decide⟩

/-- C7 (amended): below the poll ceiling, a failing real poll (network error
or non-2xx) does not stop polling and surfaces the local fallback counter
advanced by the fixed step 2 and capped at 85, with stage "processing"; a
successful poll surfaces the authoritative backend percentage and stage
(continuing unless terminal); a missing-user-id tick surfaces nothing — the
poll callback leaves progress and stage untouched. -/
theorem fallback_surfacing_semantics (s : PollState) (p : Nat) (stat a d : String)
    (hl : s.progressLive = true) (hc : s.pollCount + 1 ≤ 300) :
    ((progressTick s .fetchError).progress = min (s.fallbackProgress + 2) 85 ∧
     (progressTick s .fetchError).status = "processing" ∧
     (progressTick s .fetchError).progressLive = true ∧
     (progressTick s .notOk).progress = min (s.fallbackProgress + 2) 85 ∧
     (progressTick s .notOk).status = "processing" ∧
     (progressTick s .notOk).progressLive = true) ∧
    (stat ≠ "completed" → stat ≠ "error" →
      (progressTick s (.ok p stat a d)).progress = p ∧
      (progressTick s (.ok p stat a d)).status = stat ∧
      (progressTick s (.ok p stat a d)).progressLive = true) ∧
    ((progressTick s .noUserId).progress = s.progress ∧
     (progressTick s .noUserId).status = s.status ∧
     (progressTick s .noUserId).progressLive = true) := by
  have hno : ¬ (maxPolls < s.pollCount + 1) := by simp only [maxPolls]; omega
  refine ⟨?_, ?_, ?_⟩
  · simp only [progressTick, hl, if_true]
    rw [if_neg hno]
    exact ⟨rfl, rfl, rfl, rfl, rfl, rfl⟩
  · intro h1 h2
    simp only [progressTick, hl, if_true]
    rw [if_neg hno, if_neg (by simp [h1, h2])]
    exact ⟨rfl, rfl, rfl⟩
  · simp only [progressTick, hl, if_true]
    rw [if_neg hno]
    exact ⟨rfl, rfl, rfl⟩

/-- Witness for the amended C7 at the initial session state. -/
theorem fallback_surfacing_semantics_witness :
    (((progressTick pollInit .fetchError).progress = min (pollInit.fallbackProgress + 2) 85 ∧
     (progressTick pollInit .fetchError).status = "processing" ∧
     (progressTick pollInit .fetchError).progressLive = true ∧
     (progressTick pollInit .notOk).progress = min (pollInit.fallbackProgress + 2) 85 ∧
     (progressTick pollInit .notOk).status = "processing" ∧
     (progressTick pollInit .notOk).progressLive = true)) ∧
    ((progressTick pollInit (.ok 40 "sorting_results" "x" "y")).progress = 40 ∧
     (progressTick pollInit (.ok 40 "sorting_results" "x" "y")).status = "sorting_results" ∧
     (progressTick pollInit (.ok 40 "sorting_results" "x" "y")).progressLive = true) ∧
    ((progressTick pollInit .noUserId).progress = pollInit.progress ∧
     (progressTick pollInit .noUserId).status = pollInit.status ∧
     (progressTick pollInit .noUserId).progressLive = true) := by
  have h := fallback_surfacing_semantics pollInit 40 "sorting_results" "x" "y" rfl (by decide)
  exact ⟨h.1, h.2.1 (by decide) (by decide), h.2.2⟩
